import Mathlib

/-!
Shallow embedding of the GTFS schedule index and query engine of
`src/utils/gtfs-parser.ts` (class `GTFSParser`), together with proofs of the
specification's testable properties.

Modelling conventions:
* JavaScript `Map` objects are modelled as association lists in insertion
  order; `Map.set` replaces the value in place when the key is present
  (preserving its position, as JS `Map.set` does) and appends otherwise;
  `Map.forEach` is iteration over the association list.
* Strings are Lean `String`; JS string truthiness (`if (s)`) is `s ≠ ""`;
  `localeCompare`-based ordering of the zero-padded ASCII time strings is
  modelled by the code-unit lexicographic order `charListLe`.
* `Array.prototype.sort` (stable since ES2019) is modelled by Mathlib's
  stable `List.insertionSort`.
* A JS `Date` is modelled by the four calendar observations the parser
  makes of it (`getFullYear`, `getMonth`, `getDate`, `getDay`).
-/

/-- `interface Route` of the feed (fields used by the parser). -/
structure Route where
  route_id : String
  route_long_name : String
  route_short_name : Option String
deriving DecidableEq

/-- `interface Stop`: id, display name and coordinates (coordinates are
carried opaquely; the parser performs no arithmetic on them). -/
structure Stop where
  stop_id : String
  stop_name : String
  stop_lat : Float
  stop_lon : Float

/-- `interface Trip` (fields used by the parser). -/
structure Trip where
  trip_id : String
  route_id : String
  trip_short_name : String
  trip_headsign : String
  service_id : String
deriving DecidableEq

/-- `interface StopTime`: one scheduled visit of a trip to a stop. -/
structure StopTime where
  trip_id : String
  arrival_time : String
  departure_time : String
  stop_id : String
  stop_sequence : Nat
deriving DecidableEq

/-- A shape point, exposed unmodified to the rendering collaborator. -/
structure Shape where
  shape_pt_lat : Float
  shape_pt_lon : Float
  shape_pt_sequence : Nat

/-- `interface CalendarEntry`: weekly pattern with inclusive date range,
dates as `YYYYMMDD` integers. -/
structure CalendarEntry where
  service_id : String
  start_date : Int
  end_date : Int
  monday : Bool
  tuesday : Bool
  wednesday : Bool
  thursday : Bool
  friday : Bool
  saturday : Bool
  sunday : Bool
deriving DecidableEq

/-- `interface CalendarDateException`: per-date service exception;
`exception_type` is 1 (added) or 2 (removed). -/
structure CalendarDateException where
  service_id : String
  date : Int
  exception_type : Nat
deriving DecidableEq

/-- `EnrichedStopTime`: a `StopTime` spread together with the resolved
`stop_name` and `stop_code` fields. -/
structure EnrichedStopTime where
  trip_id : String
  arrival_time : String
  departure_time : String
  stop_id : String
  stop_sequence : Nat
  stop_name : String
  stop_code : String
deriving DecidableEq

/-- The calendar observations the parser makes of a JS `Date`:
`getFullYear`, 0-based `getMonth`, `getDate`, and `getDay`
(0 = Sunday … 6 = Saturday). -/
structure JsDate where
  getFullYear : Int
  getMonth : Nat
  getDate : Nat
  getDay : Nat
deriving DecidableEq

/-- JS `Map.get`: the value stored at `k`, if present. -/
def mapGet [DecidableEq κ] : List (κ × α) → κ → Option α
  | [], _ => none
  | (k', v) :: rest, k => if k' = k then some v else mapGet rest k

/-- JS `Map.set`: replace the value in place when the key is present
(keeping its insertion position), append otherwise. -/
def mapSet [DecidableEq κ] : List (κ × α) → κ → α → List (κ × α)
  | [], k, v => [(k, v)]
  | (k', v') :: rest, k, v =>
      if k' = k then (k, v) :: rest else (k', v') :: mapSet rest k v

/-- The Record Store: the private maps of class `GTFSParser` after a load,
with the two derived flags. -/
structure Store where
  routes : List (String × Route)
  stops : List (String × Stop)
  stopTimes : List (String × List StopTime)
  shapes : List (String × List Shape)
  trips : List (String × Trip)
  tripsByNumber : List (String × List Trip)
  calendarEntries : List (String × CalendarEntry)
  calendarDateExceptions : List (String × List (Int × Nat))
  hasCalendarData : Bool
  isLoaded : Bool

/-- The trips / tripsByNumber insertion step of `overrideData`. -/
def insertTrip (acc : List (String × Trip) × List (String × List Trip))
    (trip : Trip) : List (String × Trip) × List (String × List Trip) :=
  if trip.trip_id ≠ "" then
    let trips := mapSet acc.1 trip.trip_id trip
    if trip.trip_short_name ≠ "" then
      let existing := (mapGet acc.2 trip.trip_short_name).getD []
      (trips, mapSet acc.2 trip.trip_short_name (existing ++ [trip]))
    else (trips, acc.2)
  else acc

/-- The calendar-date-exception insertion step of `overrideData`: a nested
map keyed first by service id, then by the integer date. -/
def insertException (m : List (String × List (Int × Nat)))
    (ex : CalendarDateException) : List (String × List (Int × Nat)) :=
  if ex.service_id ≠ "" then
    let dateMap := (mapGet m ex.service_id).getD []
    mapSet m ex.service_id (mapSet dateMap ex.date ex.exception_type)
  else m

/-- `overrideData`: the Load Transaction.  Clears every index and rebuilds
it from the snapshot; rows with an empty identifying key are skipped;
`hasCalendarData` and `isLoaded` are derived from the resulting maps. -/
def overrideData (routes : List Route) (stops : List Stop)
    (stopTimes : List (String × List StopTime))
    (shapes : List (String × List Shape))
    (trips : List Trip) (calendar : List CalendarEntry)
    (calendarDates : List CalendarDateException) : Store :=
  let routeMap := routes.foldl
    (fun m r => if r.route_id ≠ "" then mapSet m r.route_id r else m) []
  let stopMap := stops.foldl
    (fun m st => if st.stop_id ≠ "" then mapSet m st.stop_id st else m) []
  let stopTimeMap := stopTimes.foldl
    (fun m e => if e.1 ≠ "" then mapSet m e.1 e.2 else m) []
  let shapeMap := shapes.foldl
    (fun m e => if e.1 ≠ "" then mapSet m e.1 e.2 else m) []
  let tripMaps := trips.foldl insertTrip ([], [])
  let entryMap := calendar.foldl
    (fun m e => if e.service_id ≠ "" then mapSet m e.service_id e else m) []
  let exceptionMap := calendarDates.foldl insertException []
  { routes := routeMap
    stops := stopMap
    stopTimes := stopTimeMap
    shapes := shapeMap
    trips := tripMaps.1
    tripsByNumber := tripMaps.2
    calendarEntries := entryMap
    calendarDateExceptions := exceptionMap
    hasCalendarData := !entryMap.isEmpty || !exceptionMap.isEmpty
    isLoaded := !routeMap.isEmpty && !stopMap.isEmpty }

/-- `getRouteName`: long name of the route, or the fallback text. -/
def getRouteName (s : Store) (routeId : String) : String :=
  match mapGet s.routes routeId with
  | some r => if r.route_long_name ≠ "" then r.route_long_name else "Unknown Route"
  | none => "Unknown Route"

/-- `getStopName`: display name of the stop, or the id itself. -/
def getStopName (s : Store) (stopId : String) : String :=
  match mapGet s.stops stopId with
  | some st => if st.stop_name ≠ "" then st.stop_name else stopId
  | none => stopId

/-- The `{ ...time, stop_name, stop_code }` spread used by the
trip-query operations. -/
def enrich (s : Store) (t : StopTime) : EnrichedStopTime :=
  { trip_id := t.trip_id
    arrival_time := t.arrival_time
    departure_time := t.departure_time
    stop_id := t.stop_id
    stop_sequence := t.stop_sequence
    stop_name := getStopName s t.stop_id
    stop_code := t.stop_id }

/-- Comparator of the stop-time sorts: ascending `stop_sequence`. -/
def seqLe (a b : EnrichedStopTime) : Prop := a.stop_sequence ≤ b.stop_sequence

instance : DecidableRel seqLe := fun a b => Nat.decLe _ _

instance : IsTotal EnrichedStopTime seqLe := ⟨fun a b => Nat.le_total _ _⟩

instance : IsTrans EnrichedStopTime seqLe := ⟨fun _ _ _ => Nat.le_trans⟩

/-- `getStopTimesForTrip`: all stop-times of the trip, enriched, sorted
ascending by sequence number; empty when the trip id is unknown. -/
def getStopTimesForTrip (s : Store) (tripId : String) : List EnrichedStopTime :=
  let times := (mapGet s.stopTimes tripId).getD []
  List.insertionSort seqLe (times.map (enrich s))

/-- `getIntermediateStops`: `times.slice(1, -1)` of the *stored* list,
enriched, then sorted by sequence number. -/
def getIntermediateStops (s : Store) (tripId : String) : List EnrichedStopTime :=
  let times := (mapGet s.stopTimes tripId).getD []
  List.insertionSort seqLe (((times.drop 1).dropLast).map (enrich s))

/-- The `YYYY*10000 + MM*100 + DD` integer form of a date
(`getMonth` is 0-based, hence the `+ 1`). -/
def jsDateInt (d : JsDate) : Int :=
  d.getFullYear * 10000 + (d.getMonth + 1) * 100 + d.getDate

/-- `isServiceActiveOnDate`: calendar resolution with exception overrides
on top of the weekly pattern. -/
def isServiceActiveOnDate (s : Store) (serviceId : String) (date : JsDate) : Bool :=
  if !s.hasCalendarData then true
  else if serviceId = "" then true
  else
    let dateInt := jsDateInt date
    let exceptionResult : Option Bool :=
      match mapGet s.calendarDateExceptions serviceId with
      | none => none
      | some exceptions =>
          match mapGet exceptions dateInt with
          | some 1 => some true
          | some 2 => some false
          | _ => none
    match exceptionResult with
    | some b => b
    | none =>
        match mapGet s.calendarEntries serviceId with
        | none => false
        | some entry =>
            if dateInt < entry.start_date || dateInt > entry.end_date then false
            else
              match date.getDay with
              | 0 => entry.sunday
              | 1 => entry.monday
              | 2 => entry.tuesday
              | 3 => entry.wednesday
              | 4 => entry.thursday
              | 5 => entry.friday
              | 6 => entry.saturday
              | _ => false

/-- The inline date filter shared by `getTripsForStop` and
`findTripsWithStops`: a trip is excluded when a date is supplied, the trip
record exists, and its service is inactive on that date. -/
def dateExcludes (s : Store) (tripId : String) (date : Option JsDate) : Bool :=
  match date with
  | some d =>
      match mapGet s.trips tripId with
      | some trip => !isServiceActiveOnDate s trip.service_id d
      | none => false
  | none => false

/-- The `stopTimes.forEach` loop of `getTripsForStop`, threading the
`seen` set of already-pushed trip ids. -/
def getTripsForStopAux (s : Store) (stopId : String) (date : Option JsDate) :
    List (String × List StopTime) → List String → List String
  | [], _ => []
  | (tripId, times) :: rest, seen =>
      if times.any (fun t => t.stop_id = stopId) && !seen.contains tripId then
        if dateExcludes s tripId date then
          getTripsForStopAux s stopId date rest seen
        else
          tripId :: getTripsForStopAux s stopId date rest (tripId :: seen)
      else getTripsForStopAux s stopId date rest seen

/-- `getTripsForStop`: trip ids whose stop-time list touches `stopId`,
optionally filtered by the service calendar. -/
def getTripsForStop (s : Store) (stopId : String) (date : Option JsDate) : List String :=
  getTripsForStopAux s stopId date s.stopTimes []

/-- The result element type of `findTripsWithStops`. -/
structure TripMatch where
  tripId : String
  fromStop : EnrichedStopTime
  toStop : EnrichedStopTime
  intermediateStops : List EnrichedStopTime
deriving DecidableEq

/-- A placeholder stop-time; never exposed (used only as the `getD`
default at indices proven in range). -/
def dummyStopTime : StopTime :=
  { trip_id := "", arrival_time := "", departure_time := "", stop_id := "", stop_sequence := 0 }

/-- The per-trip body of the `stopTimes.forEach` loop of
`findTripsWithStops`: `findIndex` both stop ids in the *stored* list and
emit a match when both are found with the from index strictly first.
`List.findIdx` returns the length when no element matches, mirroring the
`!== -1` checks. -/
def matchForTrip (s : Store) (fromStopId toStopId : String) (date : Option JsDate)
    (entry : String × List StopTime) : Option TripMatch :=
  let tripId := entry.1
  let times := entry.2
  if dateExcludes s tripId date then none
  else
    let fromIdx := times.findIdx (fun t => t.stop_id = fromStopId)
    let toIdx := times.findIdx (fun t => t.stop_id = toStopId)
    if fromIdx < times.length && toIdx < times.length && fromIdx < toIdx then
      some
        { tripId := tripId
          fromStop := enrich s (times.getD fromIdx dummyStopTime)
          toStop := enrich s (times.getD toIdx dummyStopTime)
          intermediateStops := ((times.take toIdx).drop (fromIdx + 1)).map (enrich s) }
    else none

/-- The unsorted, un-deduplicated result list of `findTripsWithStops`
(one optional match per stored trip, in map iteration order). -/
def findTripsWithStopsRaw (s : Store) (fromStopId toStopId : String)
    (date : Option JsDate) : List TripMatch :=
  s.stopTimes.filterMap (matchForTrip s fromStopId toStopId date)

/-- Code-unit lexicographic order on character lists: the comparison
`localeCompare` performs on the zero-padded ASCII time strings. -/
def charListLe : List Char → List Char → Bool
  | [], _ => true
  | _ :: _, [] => false
  | a :: as, b :: bs => if a < b then true else if b < a then false else charListLe as bs

/-- Comparator of the final sort: ascending departure time of the matched
from stop, compared lexicographically. -/
def depLe (a b : TripMatch) : Prop :=
  charListLe a.fromStop.departure_time.data b.fromStop.departure_time.data = true

instance : DecidableRel depLe := fun a b =>
  (inferInstance : Decidable (charListLe _ _ = true))

theorem charListLe_total : ∀ as bs : List Char,
    charListLe as bs = true ∨ charListLe bs as = true := by
  intro as
  induction as with
  | nil => intro bs; left; rfl
  | cons a tl ih =>
      intro bs
      cases bs with
      | nil => right; rfl
      | cons b bs =>
          rcases lt_trichotomy a b with h | h | h
          · left
            rw [charListLe, if_pos h]
          · subst h
            have hirr : ¬ a < a := lt_irrefl a
            rcases ih bs with h2 | h2
            · left
              rw [charListLe, if_neg hirr, if_neg hirr, h2]
            · right
              rw [charListLe, if_neg hirr, if_neg hirr, h2]
          · right
            rw [charListLe, if_pos h]

theorem charListLe_trans : ∀ as bs cs : List Char,
    charListLe as bs = true → charListLe bs cs = true → charListLe as cs = true := by
  intro as
  induction as with
  | nil => intro bs cs _ _; rfl
  | cons a tl ih =>
      intro bs cs h1 h2
      cases bs with
      | nil => rw [charListLe] at h1; exact absurd h1 (by simp)
      | cons b bs =>
          cases cs with
          | nil => rw [charListLe] at h2; exact absurd h2 (by simp)
          | cons c cs =>
              rw [charListLe] at h1 h2 ⊢
              by_cases hab : a < b
              · by_cases hbc : b < c
                · rw [if_pos (lt_trans hab hbc)]
                · rw [if_neg hbc] at h2
                  by_cases hcb : c < b
                  · rw [if_pos hcb] at h2
                    exact absurd h2 (by simp)
                  · obtain rfl : b = c := le_antisymm (le_of_not_lt hcb) (le_of_not_lt hbc)
                    rw [if_pos hab]
              · rw [if_neg hab] at h1
                by_cases hba : b < a
                · rw [if_pos hba] at h1
                  exact absurd h1 (by simp)
                · rw [if_neg hba] at h1
                  obtain rfl : a = b := le_antisymm (le_of_not_lt hba) (le_of_not_lt hab)
                  by_cases hac : a < c
                  · rw [if_pos hac]
                  · rw [if_neg hac] at h2 ⊢
                    by_cases hca : c < a
                    · rw [if_pos hca] at h2
                      exact absurd h2 (by simp)
                    · rw [if_neg hca] at h2 ⊢
                      exact ih bs cs h1 h2

instance : IsTotal TripMatch depLe := ⟨fun a b => charListLe_total _ _⟩

instance : IsTrans TripMatch depLe := ⟨fun _ _ _ => charListLe_trans _ _ _⟩

/-- The train number used as the dedup key of `findTripsWithStops`:
the trip's short name when present, else the trip id. -/
def matchTrainNumber (s : Store) (m : TripMatch) : String :=
  match mapGet s.trips m.tripId with
  | some trip => if trip.trip_short_name ≠ "" then trip.trip_short_name else m.tripId
  | none => m.tripId

/-- The dedup key string of `findTripsWithStops`. -/
def matchKey (s : Store) (m : TripMatch) : String :=
  matchTrainNumber s m ++ "-" ++ m.fromStop.departure_time

/-- The `filter` with a mutable `seen` set used by both dedup steps:
keep an element iff its key has not been seen, recording seen keys. -/
def dedupAux (key : α → String) : List α → List String → List α
  | [], _ => []
  | a :: l, seen =>
      if seen.contains (key a) then dedupAux key l seen
      else a :: dedupAux key l (key a :: seen)

/-- Deduplication by a string key, keeping the first occurrence. -/
def dedupByKey (key : α → String) (l : List α) : List α :=
  dedupAux key l []

/-- `findTripsWithStops`: collect matches over every stored trip, sort by
the from stop's departure time, deduplicate by train number and
departure time. -/
def findTripsWithStops (s : Store) (fromStopId toStopId : String)
    (date : Option JsDate) : List TripMatch :=
  dedupByKey (matchKey s)
    (List.insertionSort depLe (findTripsWithStopsRaw s fromStopId toStopId date))

/-- ASCII lowercase of one character (the fragment of JS `toLowerCase`
exercised by this feed's identifiers and queries). -/
def jsCharToLower (c : Char) : Char :=
  if 'A' ≤ c && c ≤ 'Z' then Char.ofNat (c.toNat + 32) else c

/-- JS `s.toLowerCase()` on the ASCII range. -/
def jsToLower (s : String) : String :=
  String.mk (s.data.map jsCharToLower)

/-- JS `haystack.includes(needle)` on code units. -/
def jsIncludes (haystack needle : String) : Bool :=
  decide (List.IsInfix needle.data haystack.data)

/-- The payload (`data` field) of a search result: the matched stop,
route, or trip reference. -/
inductive SRData where
  | stopData : Stop → SRData
  | routeData : Route → SRData
  | tripData : String → SRData
  | tripStopData : String → String → String → SRData

/-- `interface SearchResult`: synthetic id, display name, subtitle,
type tag and payload. -/
structure SearchResult where
  id : String
  name : String
  subtitle : String
  resultType : String
  data : SRData

/-- The train-number candidate derived from the raw query: strip a
leading case-insensitive "amt"; else take a pure-digit query as is; else
match the `[a-z]+` prefix / 1–4 trailing digits pattern.  The empty
string plays the role of the falsy `''` sentinel. -/
def deriveTrainNumberQuery (query : String) : String :=
  let queryLower := jsToLower query
  if List.isPrefixOf "amt".data queryLower.data then String.mk (queryLower.data.drop 3)
  else if query ≠ "" && query.data.all Char.isDigit then query
  else
    let letters := queryLower.data.takeWhile Char.isLower
    let rest := queryLower.data.dropWhile Char.isLower
    if letters ≠ [] && rest ≠ [] && rest.length ≤ 4 && rest.all Char.isDigit then
      String.mk rest
    else ""

/-- The `/_(\d+)$/` fallback of `getTrainNumber`: the trailing digit run
when it is non-empty and preceded by an underscore, else the trip id. -/
def extractTrailingNumber (tripId : String) : String :=
  let cs := tripId.data
  let digits := (cs.reverse.takeWhile Char.isDigit).reverse
  let stem := cs.take (cs.length - digits.length)
  if digits ≠ [] && stem.getLast? = some '_' then String.mk digits else tripId

/-- `getTrainNumber`: the trip's short name when present, else the
trailing number extracted from the trip id. -/
def getTrainNumber (s : Store) (tripId : String) : String :=
  match mapGet s.trips tripId with
  | some trip =>
      if trip.trip_short_name ≠ "" then trip.trip_short_name
      else extractTrailingNumber tripId
  | none => extractTrailingNumber tripId

/-- `new Set(xs)` iterated in insertion order: first occurrences. -/
def jsSetOf (l : List String) : List String :=
  l.foldl (fun acc x => if acc.contains x then acc else acc ++ [x]) []

/-- Search pass 1–2: station name substring match, else station id
substring match (mutually exclusive per stop). -/
def stopsPass (s : Store) (query queryLower : String) : List SearchResult :=
  s.stops.filterMap (fun entry =>
    let stop := entry.2
    if jsIncludes (jsToLower stop.stop_name) queryLower then
      some { id := "stop-name-" ++ stop.stop_id
             name := stop.stop_name
             subtitle := "Name contains \"" ++ query ++ "\""
             resultType := "station"
             data := SRData.stopData stop }
    else if jsIncludes (jsToLower stop.stop_id) queryLower then
      some { id := "stop-id-" ++ stop.stop_id
             name := stop.stop_name
             subtitle := "Station matches \"" ++ stop.stop_id ++ "\""
             resultType := "station"
             data := SRData.stopData stop }
    else none)

/-- Search pass 3: route substring match on long name, short name or id. -/
def routesPass (s : Store) (queryLower : String) : List SearchResult :=
  s.routes.filterMap (fun entry =>
    let route := entry.2
    let shortHit := match route.route_short_name with
      | some sn => jsIncludes (jsToLower sn) queryLower
      | none => false
    if jsIncludes (jsToLower route.route_long_name) queryLower || shortHit
        || jsIncludes (jsToLower route.route_id) queryLower then
      some { id := "route-" ++ route.route_id
             name := route.route_long_name
             subtitle := "AMT" ++ route.route_id
             resultType := "route"
             data := SRData.routeData route }
    else none)

/-- Search pass 4: direct lookup of the train-number candidate against
the short-name index, capped at 5. -/
def trainNumberPass (s : Store) (trainNumberQuery : String) : List SearchResult :=
  if trainNumberQuery ≠ "" then
    (((mapGet s.tripsByNumber trainNumberQuery).getD []).take 5).map (fun trip =>
      let routeName := getRouteName s trip.route_id
      let displayName :=
        if routeName ≠ "Unknown Route" then routeName ++ " " ++ trip.trip_short_name
        else "Train " ++ trip.trip_short_name
      { id := "train-" ++ trip.trip_id
        name := displayName
        subtitle := trip.trip_headsign
        resultType := "train"
        data := SRData.tripData trip.trip_id })
  else []

/-- Search pass 5 (`stopTimes.forEach`): the legacy trip-id-suffix match
(guarded by a lookup into the results pushed so far) and the
trip-by-visited-stop substring matches, appended to the accumulator. -/
def tripStopPass (s : Store) (queryLower trainNumberQuery : String) :
    List (String × List StopTime) → List SearchResult → List SearchResult
  | [], acc => acc
  | (tripId, times) :: rest, acc =>
      let trainNumber := getTrainNumber s tripId
      let trip := mapGet s.trips tripId
      let routeName := match trip with
        | some t => if t.route_id ≠ "" then getRouteName s t.route_id else ""
        | none => ""
      let displayName :=
        if routeName ≠ "" && routeName ≠ "Unknown Route" then
          routeName ++ " " ++ trainNumber
        else "Train " ++ trainNumber
      let headsign := match trip with
        | some t => t.trip_headsign
        | none => ""
      let acc1 :=
        if trainNumberQuery ≠ "" && List.isSuffixOf trainNumberQuery.data (jsToLower tripId).data
            && !(acc.any (fun r => r.id = "train-" ++ tripId)) then
          acc ++ [{ id := "tripid-" ++ tripId
                    name := displayName
                    subtitle := headsign
                    resultType := "train"
                    data := SRData.tripData tripId }]
        else acc
      let stopHits := (jsSetOf (times.map (fun t => t.stop_id))).filterMap
        (fun stopId =>
          match mapGet s.stops stopId with
          | some stop =>
              if jsIncludes (jsToLower stop.stop_name) queryLower then
                some { id := "trip-stop-" ++ tripId ++ "-" ++ stopId
                       name := displayName
                       subtitle := "Stops at \"" ++ stop.stop_name ++ "\""
                       resultType := "train"
                       data := SRData.tripStopData tripId stopId stop.stop_name }
              else none
          | none => none)
      tripStopPass s queryLower trainNumberQuery rest (acc1 ++ stopHits)

/-- `search`: the five matching passes in order, deduplicated by
synthetic id keeping first occurrences, truncated to 20. -/
def search (s : Store) (query : String) : List SearchResult :=
  let queryLower := jsToLower query
  let trainNumberQuery := deriveTrainNumberQuery query
  let afterStations := stopsPass s query queryLower
  let afterRoutes := afterStations ++ routesPass s queryLower
  let afterTrains := afterRoutes ++ trainNumberPass s trainNumberQuery
  let allResults := tripStopPass s queryLower trainNumberQuery s.stopTimes afterTrains
  (dedupByKey (fun r => r.id) allResults).take 20

/-- The concatenated output of the five search passes, before the final
dedup and cap (named so order-preservation of the dedup can be stated). -/
def searchResultsRaw (s : Store) (query : String) : List SearchResult :=
  let queryLower := jsToLower query
  let trainNumberQuery := deriveTrainNumberQuery query
  tripStopPass s queryLower trainNumberQuery s.stopTimes
    (stopsPass s query queryLower ++ routesPass s queryLower ++
      trainNumberPass s trainNumberQuery)

/-- An enriched stop-time's times belong verbatim to the given stored
list (the frame property of §8's post-midnight scenario). -/
def preservesTimes (stored : List StopTime) (e : EnrichedStopTime) : Prop :=
  ∃ t ∈ stored, e.arrival_time = t.arrival_time ∧ e.departure_time = t.departure_time

/-- Helper for building concrete stop-times in the examples below. -/
def mkStopTime (tid arr dep sid : String) (seq : Nat) : StopTime :=
  { trip_id := tid, arrival_time := arr, departure_time := dep
    stop_id := sid, stop_sequence := seq }

/-- Stops of the running concrete example. -/
def exampleStops : List Stop :=
  [ { stop_id := "A", stop_name := "Union Station", stop_lat := 0, stop_lon := 0 },
    { stop_id := "B", stop_name := "Central Station", stop_lat := 0, stop_lon := 0 },
    { stop_id := "C", stop_name := "Midtown", stop_lat := 0, stop_lon := 0 } ]

/-- Routes of the running concrete example. -/
def exampleRoutes : List Route :=
  [ { route_id := "R1", route_long_name := "Cardinal", route_short_name := none } ]

/-- Trips of the running concrete example. -/
def exampleTrips : List Trip :=
  [ { trip_id := "T1", route_id := "R1", trip_short_name := "1234"
      trip_headsign := "South", service_id := "S1" },
    { trip_id := "T2", route_id := "R1", trip_short_name := "1234"
      trip_headsign := "South", service_id := "S2" } ]

/-- A calendar entry marking Monday inactive for service S1. -/
def exampleCalendar : List CalendarEntry :=
  [ { service_id := "S1", start_date := 20250101, end_date := 20251231
      monday := false, tuesday := true, wednesday := true, thursday := true
      friday := true, saturday := true, sunday := true } ]

/-- Exceptions: S1 added on Monday 2025-01-06, removed on 2025-01-07. -/
def exampleExceptions : List CalendarDateException :=
  [ { service_id := "S1", date := 20250106, exception_type := 1 },
    { service_id := "S1", date := 20250107, exception_type := 2 } ]

/-- Sequence-sorted stop-times of trip T1, with a post-midnight
departure time kept as `"25:15:00"`. -/
def exampleT1Times : List StopTime :=
  [ mkStopTime "T1" "08:00:00" "08:00:00" "A" 1,
    mkStopTime "T1" "25:15:00" "25:15:00" "C" 2,
    mkStopTime "T1" "26:30:00" "26:30:00" "B" 3 ]

/-- Stop-times of trip T2: the same physical run on another service day. -/
def exampleT2Times : List StopTime :=
  [ mkStopTime "T2" "08:00:00" "08:00:00" "A" 1,
    mkStopTime "T2" "25:15:00" "25:15:00" "C" 2,
    mkStopTime "T2" "26:30:00" "26:30:00" "B" 3 ]

/-- The loaded running example store. -/
def exampleStore : Store :=
  overrideData exampleRoutes exampleStops
    [("T1", exampleT1Times), ("T2", exampleT2Times)] []
    exampleTrips exampleCalendar exampleExceptions

/-- A Monday date (2025-01-06) in JS `Date` observation form. -/
def exampleMonday : JsDate :=
  { getFullYear := 2025, getMonth := 0, getDate := 6, getDay := 1 }

/-- A store whose only trip has its stop-time list stored *out of*
stop-sequence order (sequence 2 first, then 1, then 3), as the load
transaction accepts verbatim. -/
def unsortedStore : Store :=
  overrideData [] []
    [("T", [ mkStopTime "T" "08:00:00" "08:00:00" "A" 2,
             mkStopTime "T" "09:00:00" "09:00:00" "B" 1,
             mkStopTime "T" "10:00:00" "10:00:00" "C" 3 ])] [] [] [] []

/-- A Tuesday date (2025-01-07) carrying a "removed" exception for S1. -/
def exampleTuesday : JsDate :=
  { getFullYear := 2025, getMonth := 0, getDate := 7, getDay := 2 }

/-- The store produced by a load with a fully empty snapshot. -/
def emptyStore : Store := overrideData [] [] [] [] [] [] []

theorem mapGet_mapSet [DecidableEq κ] (m : List (κ × α)) (k k' : κ) (v : α) :
    mapGet (mapSet m k v) k' = if k = k' then some v else mapGet m k' := by
  induction m with
  | nil => simp [mapSet, mapGet]
  | cons hd tl ih =>
      obtain ⟨k₀, v₀⟩ := hd
      by_cases h : k₀ = k
      · subst h
        by_cases h' : k₀ = k' <;> simp [mapSet, mapGet, h']
      · by_cases h' : k₀ = k'
        · subst h'
          have hne : ¬ k = k₀ := fun hh => h hh.symm
          simp [mapSet, mapGet, h, hne]
        · simp [mapSet, mapGet, h, h', ih]

theorem mapGet_ne_nil [DecidableEq κ] {m : List (κ × α)} {k : κ} {v : α}
    (h : mapGet m k = some v) : m ≠ [] := by
  intro hnil
  subst hnil
  simp [mapGet] at h

/-- The exception index never holds an entry under the empty service id:
`overrideData` skips such rows. -/
theorem exceptionFold_empty_key (l : List CalendarDateException)
    (init : List (String × List (Int × Nat))) (h : mapGet init "" = none) :
    mapGet (l.foldl insertException init) "" = none := by
  induction l generalizing init with
  | nil => exact h
  | cons ex tl ih =>
      refine ih _ ?_
      by_cases hx : ex.service_id ≠ ""
      · rw [insertException, if_pos hx, mapGet_mapSet, if_neg, h]
        exact fun hh => hx hh
      · rw [insertException, if_neg hx]
        exact h

/-- `dedupAux` is a sublist of its input. -/
theorem dedupAux_sublist (key : α → String) :
    ∀ (l : List α) (seen : List String), List.Sublist (dedupAux key l seen) l := by
  intro l
  induction l with
  | nil => intro seen; simp [dedupAux]
  | cons a tl ih =>
      intro seen
      rw [dedupAux]
      by_cases h : seen.contains (key a)
      · rw [if_pos h]
        exact (ih seen).trans (List.sublist_cons_self a tl)
      · rw [if_neg h]
        exact (ih (key a :: seen)).cons₂ a

/-- The three facts about `dedupAux` used by the dedup claims: its keys
are distinct, none of its keys was previously seen, and every kept
element is the first element of the input with its key. -/
theorem dedupAux_spec (key : α → String) :
    ∀ (l : List α) (seen : List String),
      ((dedupAux key l seen).map key).Nodup ∧
      (∀ x ∈ dedupAux key l seen, key x ∉ seen) ∧
      (∀ x ∈ dedupAux key l seen,
        l.find? (fun y => key y == key x) = some x) := by
  intro l
  induction l with
  | nil => intro seen; simp [dedupAux]
  | cons a tl ih =>
      intro seen
      rw [dedupAux]
      by_cases h : seen.contains (key a)
      · rw [if_pos h]
        obtain ⟨ih1, ih2, ih3⟩ := ih seen
        refine ⟨ih1, ih2, ?_⟩
        intro x hx
        have hne : key a ≠ key x := by
          intro he
          exact (ih2 x hx) (he ▸ List.elem_iff.mp h)
        rw [List.find?_cons_of_neg, ih3 x hx]
        simpa using hne
      · rw [if_neg h]
        obtain ⟨ih1, ih2, ih3⟩ := ih (key a :: seen)
        have hseen : key a ∉ seen := fun hmem => h (List.elem_iff.mpr hmem)
        refine ⟨?_, ?_, ?_⟩
        · rw [List.map_cons, List.nodup_cons]
          exact ⟨fun hmem => by
            obtain ⟨x, hx, hkx⟩ := List.mem_map.mp hmem
            exact (ih2 x hx) (hkx ▸ List.mem_cons_self _ _), ih1⟩
        · intro x hx
          rcases List.mem_cons.mp hx with rfl | hx'
          · exact hseen
          · exact fun hmem => (ih2 x hx') (List.mem_cons_of_mem _ hmem)
        · intro x hx
          rcases List.mem_cons.mp hx with rfl | hx'
          · rw [List.find?_cons_of_pos]
            simp
          · have hne : key a ≠ key x := by
              intro he
              exact (ih2 x hx') (he ▸ List.mem_cons_self _ _)
            rw [List.find?_cons_of_neg, ih3 x hx']
            simpa using hne

theorem matchForTrip_some {s : Store} {a b : String} {d : Option JsDate}
    {entry : String × List StopTime} {m : TripMatch}
    (h : matchForTrip s a b d entry = some m) :
    dateExcludes s entry.1 d = false ∧
    entry.2.findIdx (fun t => t.stop_id = a) < entry.2.length ∧
    entry.2.findIdx (fun t => t.stop_id = b) < entry.2.length ∧
    entry.2.findIdx (fun t => t.stop_id = a) < entry.2.findIdx (fun t => t.stop_id = b) ∧
    m = { tripId := entry.1
          fromStop := enrich s
            (entry.2.getD (entry.2.findIdx (fun t => t.stop_id = a)) dummyStopTime)
          toStop := enrich s
            (entry.2.getD (entry.2.findIdx (fun t => t.stop_id = b)) dummyStopTime)
          intermediateStops :=
            ((entry.2.take (entry.2.findIdx (fun t => t.stop_id = b))).drop
              (entry.2.findIdx (fun t => t.stop_id = a) + 1)).map (enrich s) } := by
  unfold matchForTrip at h
  by_cases hd : dateExcludes s entry.1 d = true
  · rw [if_pos hd] at h
    exact absurd h (by simp)
  · rw [if_neg hd] at h
    refine ⟨Bool.not_eq_true _ ▸ eq_false_of_ne_true hd, ?_⟩
    by_cases hc : (decide (entry.2.findIdx (fun t => t.stop_id = a) < entry.2.length) &&
        decide (entry.2.findIdx (fun t => t.stop_id = b) < entry.2.length) &&
        decide (entry.2.findIdx (fun t => t.stop_id = a) <
          entry.2.findIdx (fun t => t.stop_id = b))) = true
    · rw [if_pos hc] at h
      simp only [Bool.and_eq_true, decide_eq_true_eq] at hc
      obtain ⟨⟨hc1, hc2⟩, hc3⟩ := hc
      exact ⟨hc1, hc2, hc3, (Option.some.inj h).symm⟩
    · rw [if_neg hc] at h
      exact absurd h (by simp)

theorem mem_findTripsWithStops {s : Store} {a b : String} {d : Option JsDate}
    {m : TripMatch} (h : m ∈ findTripsWithStops s a b d) :
    ∃ entry ∈ s.stopTimes, matchForTrip s a b d entry = some m := by
  unfold findTripsWithStops dedupByKey at h
  have h1 : m ∈ List.insertionSort depLe (findTripsWithStopsRaw s a b d) :=
    (dedupAux_sublist _ _ _).subset h
  have h2 : m ∈ findTripsWithStopsRaw s a b d := (List.mem_insertionSort depLe).mp h1
  exact List.mem_filterMap.mp h2

/-- C1 (counterexample): with trip "T" stored out of stop-sequence order
(sequence 2 at index 0, sequence 1 at index 1), `findTripsWithStops`
returns a match from stop "A" (sequence 2) to stop "B" (sequence 1), so
the claim that the matched "to" stop-sequence is never ≤ the "from"
stop-sequence is false as stated: the code compares stored array indices,
not sequence numbers. -/
theorem c1_counterexample :
    ¬ (∀ m ∈ findTripsWithStops unsortedStore "A" "B" none,
        m.fromStop.stop_sequence < m.toStop.stop_sequence) := by decide

/-- C1 (amended): provided every stored stop-time list is strictly
increasing in `stop_sequence` (stored order = physical order), every
match of `findTripsWithStops` has its "from" stop-sequence strictly
below its "to" stop-sequence, for every pair of stop ids and every
optional date. -/
theorem c1_directional_connectivity (s : Store) (a b : String) (d : Option JsDate)
    (h : ∀ e ∈ s.stopTimes,
      e.2.Pairwise (fun t u => t.stop_sequence < u.stop_sequence)) :
    ∀ m ∈ findTripsWithStops s a b d,
      m.fromStop.stop_sequence < m.toStop.stop_sequence := by
  intro m hm
  obtain ⟨entry, hentry, heq⟩ := mem_findTripsWithStops hm
  obtain ⟨-, h1, h2, h3, rfl⟩ := matchForTrip_some heq
  have hp := h entry hentry
  show (enrich s (entry.2.getD (entry.2.findIdx (fun t => t.stop_id = a)) dummyStopTime)).stop_sequence <
    (enrich s (entry.2.getD (entry.2.findIdx (fun t => t.stop_id = b)) dummyStopTime)).stop_sequence
  rw [List.getD_eq_getElem entry.2 dummyStopTime h1,
      List.getD_eq_getElem entry.2 dummyStopTime h2]
  exact List.pairwise_iff_getElem.mp hp _ _ h1 h2 h3

/-- C1 (witness): on the loaded example store, the single match from "A"
to "B" goes from sequence 1 to sequence 3. -/
theorem c1_witness :
    (enrich exampleStore (mkStopTime "T1" "08:00:00" "08:00:00" "A" 1)).stop_sequence <
    (enrich exampleStore (mkStopTime "T1" "26:30:00" "26:30:00" "B" 3)).stop_sequence :=
  c1_directional_connectivity exampleStore "A" "B" none (by decide)
    { tripId := "T1"
      fromStop := enrich exampleStore (mkStopTime "T1" "08:00:00" "08:00:00" "A" 1)
      toStop := enrich exampleStore (mkStopTime "T1" "26:30:00" "26:30:00" "B" 3)
      intermediateStops := [enrich exampleStore (mkStopTime "T1" "25:15:00" "25:15:00" "C" 2)] }
    (by decide)

/-- C2 (counterexample): with trip "T" stored out of stop-sequence order,
`getIntermediateStops` (which slices the *stored* list before sorting)
keeps the stop with sequence 1 and drops the one with sequence 2, so its
elements are not the sorted full sequence minus its first and last
elements. -/
theorem c2_counterexample :
    getIntermediateStops unsortedStore "T" ≠
      ((getStopTimesForTrip unsortedStore "T").drop 1).dropLast := by decide

/-- C2 (amended): the length of `getIntermediateStops` always equals the
length of `getStopTimesForTrip` minus 2 (0 when that length is below 2,
with no hypothesis on the store); and provided the trip's stored
stop-time list is strictly increasing in `stop_sequence`, its elements
are exactly the sorted full sequence with the first and last elements
removed, in sorted order. -/
theorem c2_intermediate_exclusion (s : Store) (tripId : String) :
    (getIntermediateStops s tripId).length =
      (getStopTimesForTrip s tripId).length - 2 ∧
    (((mapGet s.stopTimes tripId).getD []).Pairwise
        (fun t u => t.stop_sequence < u.stop_sequence) →
      getIntermediateStops s tripId =
        ((getStopTimesForTrip s tripId).drop 1).dropLast) := by
  constructor
  · show (List.insertionSort seqLe
        (((((mapGet s.stopTimes tripId).getD []).drop 1).dropLast).map (enrich s))).length =
      (List.insertionSort seqLe
        (((mapGet s.stopTimes tripId).getD []).map (enrich s))).length - 2
    simp only [List.length_insertionSort, List.length_map, List.length_dropLast,
      List.length_drop]
    omega
  · intro h
    have hsorted : (((mapGet s.stopTimes tripId).getD []).map (enrich s)).Pairwise seqLe :=
      List.pairwise_map.mpr (h.imp (fun hlt => le_of_lt hlt))
    have hfull : getStopTimesForTrip s tripId =
        ((mapGet s.stopTimes tripId).getD []).map (enrich s) :=
      List.Sorted.insertionSort_eq hsorted
    have hcomm : ((((mapGet s.stopTimes tripId).getD []).drop 1).dropLast).map (enrich s) =
        ((((mapGet s.stopTimes tripId).getD []).map (enrich s)).drop 1).dropLast := by
      rw [List.map_dropLast, List.map_drop]
    have hsub : List.Sublist
        (((((mapGet s.stopTimes tripId).getD []).map (enrich s)).drop 1).dropLast)
        (((mapGet s.stopTimes tripId).getD []).map (enrich s)) :=
      (List.dropLast_sublist _).trans (List.drop_sublist 1 _)
    have hmid : getIntermediateStops s tripId =
        ((((mapGet s.stopTimes tripId).getD []).map (enrich s)).drop 1).dropLast := by
      show List.insertionSort seqLe
        (((((mapGet s.stopTimes tripId).getD []).drop 1).dropLast).map (enrich s)) = _
      rw [hcomm]
      exact List.Sorted.insertionSort_eq (hsorted.sublist hsub)
    rw [hmid, hfull]

/-- C2 (witness): the length relation holds on the loaded example store
with no hypothesis, and trip T1's intermediate stops (whose stored list
is sequence-sorted) are exactly its sorted stop-times minus the
endpoints. -/
theorem c2_witness :
    (getIntermediateStops exampleStore "T1").length =
      (getStopTimesForTrip exampleStore "T1").length - 2 ∧
    getIntermediateStops exampleStore "T1" =
      ((getStopTimesForTrip exampleStore "T1").drop 1).dropLast :=
  ⟨(c2_intermediate_exclusion exampleStore "T1").1,
   (c2_intermediate_exclusion exampleStore "T1").2 (by decide)⟩

/-- C7 (confirmed): when the stored stop-time list of a trip has pairwise
distinct `stop_sequence` numbers (the stated feed invariant),
`getStopTimesForTrip` returns the stop-times in strictly increasing
`stop_sequence` order. -/
theorem c7_sort_invariant (s : Store) (tripId : String)
    (h : ((mapGet s.stopTimes tripId).getD []).Pairwise
      (fun t u => t.stop_sequence ≠ u.stop_sequence)) :
    (getStopTimesForTrip s tripId).Pairwise
      (fun a b => a.stop_sequence < b.stop_sequence) := by
  have hle : (getStopTimesForTrip s tripId).Pairwise seqLe :=
    List.sorted_insertionSort seqLe _
  have hne0 : (((mapGet s.stopTimes tripId).getD []).map (enrich s)).Pairwise
      (fun a b => a.stop_sequence ≠ b.stop_sequence) :=
    List.pairwise_map.mpr h
  have hperm : (getStopTimesForTrip s tripId).Perm
      (((mapGet s.stopTimes tripId).getD []).map (enrich s)) :=
    List.perm_insertionSort seqLe _
  have hne : (getStopTimesForTrip s tripId).Pairwise
      (fun a b => a.stop_sequence ≠ b.stop_sequence) :=
    (hperm.pairwise_iff (fun hab => hab.symm)).mpr hne0
  exact (hle.and hne).imp (fun hab => lt_of_le_of_ne hab.1 hab.2)

/-- C7 (witness): the invariant holds on trip T1 of the example store,
so its retrieved stop-times are strictly increasing in sequence. -/
theorem c7_witness :
    (getStopTimesForTrip exampleStore "T1").Pairwise
      (fun a b => a.stop_sequence < b.stop_sequence) :=
  c7_sort_invariant exampleStore "T1" (by decide)

theorem isServiceActive_exception (s : Store) (sid : String) (d : JsDate)
    (hflag : s.hasCalendarData = true) (hsid : sid ≠ "")
    (em : List (Int × Nat)) (hm : mapGet s.calendarDateExceptions sid = some em)
    (ty : Nat) (hd : mapGet em (jsDateInt d) = some ty) :
    (ty = 1 → isServiceActiveOnDate s sid d = true) ∧
    (ty = 2 → isServiceActiveOnDate s sid d = false) := by
  constructor <;> intro hty <;> subst hty <;>
  · unfold isServiceActiveOnDate
    rw [hflag]
    simp only [Bool.not_true, Bool.false_eq_true, if_false, hsid, ite_false, hm, hd]

/-- C3 (confirmed): in any store built by a load, an exception of type 1
("added") for a service id on a date makes `isServiceActiveOnDate` return
true, and type 2 ("removed") makes it return false, regardless of the
weekly pattern and date range of that service's calendar entry. -/
theorem c3_exception_precedence (routes : List Route) (stops : List Stop)
    (stopTimesL : List (String × List StopTime))
    (shapesL : List (String × List Shape)) (trips : List Trip)
    (calendar : List CalendarEntry) (calendarDates : List CalendarDateException)
    (serviceId : String) (d : JsDate) (em : List (Int × Nat)) (ty : Nat)
    (hm : mapGet (overrideData routes stops stopTimesL shapesL trips calendar
      calendarDates).calendarDateExceptions serviceId = some em)
    (hd : mapGet em (jsDateInt d) = some ty) :
    (ty = 1 → isServiceActiveOnDate (overrideData routes stops stopTimesL shapesL
      trips calendar calendarDates) serviceId d = true) ∧
    (ty = 2 → isServiceActiveOnDate (overrideData routes stops stopTimesL shapesL
      trips calendar calendarDates) serviceId d = false) := by
  have hproj : (overrideData routes stops stopTimesL shapesL trips calendar
      calendarDates).calendarDateExceptions = calendarDates.foldl insertException [] := rfl
  have hsid : serviceId ≠ "" := by
    intro he
    subst he
    rw [hproj, exceptionFold_empty_key calendarDates [] rfl] at hm
    exact Option.noConfusion hm
  have hflag : (overrideData routes stops stopTimesL shapesL trips calendar
      calendarDates).hasCalendarData = true := by
    have hne : calendarDates.foldl insertException [] ≠ [] := by
      have := mapGet_ne_nil hm
      rw [hproj] at this
      exact this
    show (!(calendar.foldl
        (fun m e => if e.service_id ≠ "" then mapSet m e.service_id e else m) []).isEmpty ||
      !(calendarDates.foldl insertException []).isEmpty) = true
    rcases hx : calendarDates.foldl insertException [] with _ | ⟨hd0, tl0⟩
    · exact absurd hx hne
    · simp [List.isEmpty]
  exact isServiceActive_exception _ _ _ hflag hsid em hm ty hd

/-- C3 (witness): on the example inputs, the "added" exception on Monday
2025-01-06 forces true (the weekly pattern marks Monday inactive), and
the "removed" exception on Tuesday 2025-01-07 forces false (the weekly
pattern marks Tuesday active). -/
theorem c3_witness :
    isServiceActiveOnDate exampleStore "S1" exampleMonday = true ∧
    isServiceActiveOnDate exampleStore "S1" exampleTuesday = false :=
  ⟨(c3_exception_precedence exampleRoutes exampleStops
      [("T1", exampleT1Times), ("T2", exampleT2Times)] [] exampleTrips
      exampleCalendar exampleExceptions "S1" exampleMonday
      [(20250106, 1), (20250107, 2)] 1 (by decide) (by decide)).1 rfl,
   (c3_exception_precedence exampleRoutes exampleStops
      [("T1", exampleT1Times), ("T2", exampleT2Times)] [] exampleTrips
      exampleCalendar exampleExceptions "S1" exampleTuesday
      [(20250106, 1), (20250107, 2)] 2 (by decide) (by decide)).2 rfl⟩

/-- C4 (confirmed): when the "has calendar data" flag is false,
`isServiceActiveOnDate` returns true for every service id and date; an
empty service id returns true in every store; and a load that ingests no
calendar entries and no exceptions leaves the flag false. -/
theorem c4_calendar_fallback :
    (∀ s : Store, s.hasCalendarData = false →
      ∀ (sid : String) (d : JsDate), isServiceActiveOnDate s sid d = true) ∧
    (∀ (s : Store) (d : JsDate), isServiceActiveOnDate s "" d = true) ∧
    (∀ (routes : List Route) (stops : List Stop)
      (stopTimesL : List (String × List StopTime))
      (shapesL : List (String × List Shape)) (trips : List Trip),
      (overrideData routes stops stopTimesL shapesL trips [] []).hasCalendarData
        = false) := by
  refine ⟨?_, ?_, ?_⟩
  · intro s hs sid d
    unfold isServiceActiveOnDate
    rw [hs]
    rfl
  · intro s d
    unfold isServiceActiveOnDate
    cases hs : s.hasCalendarData <;> simp [hs]
  · intro routes stops stopTimesL shapesL trips
    rfl

/-- C4 (witness): an empty load answers true for service "S1", and the
loaded example store answers true for the empty service id. -/
theorem c4_witness :
    isServiceActiveOnDate emptyStore "S1" exampleMonday = true ∧
    isServiceActiveOnDate exampleStore "" exampleMonday = true :=
  ⟨c4_calendar_fallback.1 emptyStore (by decide) "S1" exampleMonday,
   c4_calendar_fallback.2.1 exampleStore exampleMonday⟩

theorem dedup_take_nodup (key : α → String) (l : List α) (n : Nat) :
    (((dedupByKey key l).take n).map key).Nodup := by
  have h1 := (dedupAux_spec key l []).1
  exact h1.sublist ((List.take_sublist n (dedupByKey key l)).map key)

/-- C5 (confirmed): the output of `findTripsWithStops` is (i) sorted
ascending by the matched "from" stop's departure-time string under the
lexicographic order, (ii) free of two distinct entries sharing the same
(train number, "from" departure time) pair, (iii) an order-preserving
sublist of the sorted pre-dedup result, and (iv) made of exactly the
first occurrence of each dedup key in that sorted order. -/
theorem c5_sort_and_dedup (s : Store) (a b : String) (d : Option JsDate) :
    (findTripsWithStops s a b d).Pairwise depLe ∧
    (∀ x ∈ findTripsWithStops s a b d, ∀ y ∈ findTripsWithStops s a b d,
      matchTrainNumber s x = matchTrainNumber s y →
      x.fromStop.departure_time = y.fromStop.departure_time → x = y) ∧
    List.Sublist (findTripsWithStops s a b d)
      (List.insertionSort depLe (findTripsWithStopsRaw s a b d)) ∧
    (∀ x ∈ findTripsWithStops s a b d,
      (List.insertionSort depLe (findTripsWithStopsRaw s a b d)).find?
        (fun y => matchKey s y == matchKey s x) = some x) := by
  obtain ⟨h1, h2, h3⟩ := dedupAux_spec (matchKey s)
    (List.insertionSort depLe (findTripsWithStopsRaw s a b d)) []
  refine ⟨?_, ?_, ?_, ?_⟩
  · exact (List.sorted_insertionSort depLe
      (findTripsWithStopsRaw s a b d)).sublist (dedupAux_sublist _ _ _)
  · intro x hx y hy hnum hdep
    refine List.inj_on_of_nodup_map h1 hx hy ?_
    show matchKey s x = matchKey s y
    unfold matchKey
    rw [hnum, hdep]
  · exact dedupAux_sublist _ _ _
  · exact h3

/-- C5 (witness): the concrete output for the example store is sorted and
is a sublist of the sorted raw result (trips T1 and T2 collapse to one). -/
theorem c5_witness :
    (findTripsWithStops exampleStore "A" "B" none).Pairwise depLe ∧
    List.Sublist (findTripsWithStops exampleStore "A" "B" none)
      (List.insertionSort depLe (findTripsWithStopsRaw exampleStore "A" "B" none)) :=
  ⟨(c5_sort_and_dedup exampleStore "A" "B" none).1,
   (c5_sort_and_dedup exampleStore "A" "B" none).2.2.1⟩

/-- C6 (confirmed): `search` returns at most 20 results; its synthetic
ids are pairwise distinct; the output is an order-preserving sublist of
the concatenated pass output, each returned result being the *first*
result of that output bearing its id (first-seen order and
representatives); and (being a pure function of the store and query)
two calls with the same arguments return identical output. -/
theorem c6_search_cap_nodup (s : Store) (q : String) :
    (search s q).length ≤ 20 ∧
    ((search s q).map (fun r => r.id)).Nodup ∧
    List.Sublist (search s q) (searchResultsRaw s q) ∧
    (∀ r ∈ search s q,
      (searchResultsRaw s q).find? (fun y => y.id == r.id) = some r) ∧
    search s q = search s q := by
  refine ⟨?_, ?_, ?_, ?_, rfl⟩
  · show ((dedupByKey (fun r => r.id) (searchResultsRaw s q)).take 20).length ≤ 20
    rw [List.length_take]
    exact min_le_left _ _
  · show (((dedupByKey (fun r => r.id) (searchResultsRaw s q)).take 20).map
      (fun r => r.id)).Nodup
    exact dedup_take_nodup (fun r : SearchResult => r.id) _ 20
  · show List.Sublist ((dedupByKey (fun r => r.id) (searchResultsRaw s q)).take 20)
      (searchResultsRaw s q)
    exact (List.take_sublist 20 _).trans (dedupAux_sublist _ _ _)
  · intro r hr
    have hr2 : r ∈ dedupByKey (fun r : SearchResult => r.id) (searchResultsRaw s q) :=
      (List.take_sublist 20 _).subset hr
    exact (dedupAux_spec (fun r : SearchResult => r.id) (searchResultsRaw s q) []).2.2 r hr2

/-- C6 (witness): on a concrete query of the example store, the cap
holds and the output is an order-preserving sublist of the pass
output. -/
theorem c6_witness :
    (search exampleStore "1234").length ≤ 20 ∧
    List.Sublist (search exampleStore "1234") (searchResultsRaw exampleStore "1234") :=
  ⟨(c6_search_cap_nodup exampleStore "1234").1,
   (c6_search_cap_nodup exampleStore "1234").2.2.1⟩

/-- C8 (confirmed): every enriched stop-time produced by
`getStopTimesForTrip`, `getIntermediateStops`, or `findTripsWithStops`
(matched "from"/"to" stops and the intermediate slice) carries the
arrival and departure strings of a stored stop-time of that trip,
verbatim; times such as "25:15:00" are never rewritten. -/
theorem c8_times_verbatim (s : Store) (tripId a b : String) (d : Option JsDate) :
    (∀ e ∈ getStopTimesForTrip s tripId,
      preservesTimes ((mapGet s.stopTimes tripId).getD []) e) ∧
    (∀ e ∈ getIntermediateStops s tripId,
      preservesTimes ((mapGet s.stopTimes tripId).getD []) e) ∧
    (∀ m ∈ findTripsWithStops s a b d, ∃ entry ∈ s.stopTimes,
      entry.1 = m.tripId ∧ preservesTimes entry.2 m.fromStop ∧
      preservesTimes entry.2 m.toStop ∧
      ∀ e ∈ m.intermediateStops, preservesTimes entry.2 e) := by
  refine ⟨?_, ?_, ?_⟩
  · intro e he
    have he2 : e ∈ ((mapGet s.stopTimes tripId).getD []).map (enrich s) :=
      (List.mem_insertionSort seqLe).mp he
    obtain ⟨t, ht, rfl⟩ := List.mem_map.mp he2
    exact ⟨t, ht, rfl, rfl⟩
  · intro e he
    have he2 : e ∈ ((((mapGet s.stopTimes tripId).getD []).drop 1).dropLast).map (enrich s) :=
      (List.mem_insertionSort seqLe).mp he
    obtain ⟨t, ht, rfl⟩ := List.mem_map.mp he2
    have ht2 : t ∈ (mapGet s.stopTimes tripId).getD [] :=
      ((List.dropLast_sublist _).trans (List.drop_sublist 1 _)).subset ht
    exact ⟨t, ht2, rfl, rfl⟩
  · intro m hm
    obtain ⟨entry, hentry, heq⟩ := mem_findTripsWithStops hm
    obtain ⟨-, h1, h2, h3, rfl⟩ := matchForTrip_some heq
    refine ⟨entry, hentry, rfl, ?_, ?_, ?_⟩
    · refine ⟨entry.2.getD
        (entry.2.findIdx (fun t : StopTime => t.stop_id = a)) dummyStopTime,
        ?_, rfl, rfl⟩
      rw [List.getD_eq_getElem entry.2 dummyStopTime h1]
      exact List.getElem_mem h1
    · refine ⟨entry.2.getD
        (entry.2.findIdx (fun t : StopTime => t.stop_id = b)) dummyStopTime,
        ?_, rfl, rfl⟩
      rw [List.getD_eq_getElem entry.2 dummyStopTime h2]
      exact List.getElem_mem h2
    · intro e he
      obtain ⟨t, ht, rfl⟩ := List.mem_map.mp he
      have ht2 : t ∈ entry.2 :=
        ((List.drop_sublist _ _).trans (List.take_sublist _ _)).subset ht
      exact ⟨t, ht2, rfl, rfl⟩

/-- C8 (witness): the example trip's post-midnight stop-time "25:15:00"
is returned by `getStopTimesForTrip` with its stored times verbatim. -/
theorem c8_witness :
    preservesTimes ((mapGet exampleStore.stopTimes "T1").getD [])
      (enrich exampleStore (mkStopTime "T1" "25:15:00" "25:15:00" "C" 2)) :=
  (c8_times_verbatim exampleStore "T1" "A" "B" none).1 _ (by decide)

/-- C9 (confirmed): a trip id with no stored stop-time list yields empty
sequences from `getStopTimesForTrip` and `getIntermediateStops`; an
unknown route id yields the "Unknown Route" fallback; an unknown stop id
yields the id itself.  (In this total embedding, absence is represented
by these values and no operation can throw.) -/
theorem c9_absence_no_throw (s : Store) (tripId routeId stopId : String) :
    (mapGet s.stopTimes tripId = none →
      getStopTimesForTrip s tripId = [] ∧ getIntermediateStops s tripId = []) ∧
    (mapGet s.routes routeId = none → getRouteName s routeId = "Unknown Route") ∧
    (mapGet s.stops stopId = none → getStopName s stopId = stopId) := by
  refine ⟨fun h => ?_, fun h => ?_, fun h => ?_⟩
  · constructor
    · show List.insertionSort seqLe
        (((mapGet s.stopTimes tripId).getD []).map (enrich s)) = []
      rw [h]
      rfl
    · show List.insertionSort seqLe
        (((((mapGet s.stopTimes tripId).getD []).drop 1).dropLast).map (enrich s)) = []
      rw [h]
      rfl
  · unfold getRouteName
    rw [h]
  · unfold getStopName
    rw [h]

/-- C9 (witness): unknown ids on the example store give the empty or
fallback results. -/
theorem c9_witness :
    getStopTimesForTrip exampleStore "ZZZ" = [] ∧
    getIntermediateStops exampleStore "ZZZ" = [] ∧
    getRouteName exampleStore "ZZZ" = "Unknown Route" ∧
    getStopName exampleStore "ZZZ" = "ZZZ" :=
  ⟨((c9_absence_no_throw exampleStore "ZZZ" "ZZZ" "ZZZ").1 rfl).1,
   ((c9_absence_no_throw exampleStore "ZZZ" "ZZZ" "ZZZ").1 rfl).2,
   (c9_absence_no_throw exampleStore "ZZZ" "ZZZ" "ZZZ").2.1 rfl,
   (c9_absence_no_throw exampleStore "ZZZ" "ZZZ" "ZZZ").2.2 rfl⟩

theorem mem_getTripsForStopAux (s : Store) (stopId tripId : String)
    (date : Option JsDate) :
    ∀ (entries : List (String × List StopTime)) (seen : List String),
      (tripId ∈ getTripsForStopAux s stopId date entries seen ↔
        (tripId ∉ seen ∧ dateExcludes s tripId date = false ∧
          ∃ e ∈ entries, e.1 = tripId ∧
            e.2.any (fun t => t.stop_id = stopId) = true)) := by
  intro entries
  induction entries with
  | nil =>
      intro seen
      simp [getTripsForStopAux]
  | cons entry rest ih =>
      intro seen
      obtain ⟨k, times⟩ := entry
      rw [getTripsForStopAux]
      by_cases hcond : (times.any (fun t => t.stop_id = stopId) && !seen.contains k) = true
      · rw [if_pos hcond]
        rw [Bool.and_eq_true, Bool.not_eq_true'] at hcond
        obtain ⟨hany, hseenk⟩ := hcond
        by_cases hde : dateExcludes s k date = true
        · rw [if_pos hde]
          rw [ih seen]
          constructor
          · rintro ⟨hs, hdF, e, he, hek, hea⟩
            exact ⟨hs, hdF, e, List.mem_cons_of_mem _ he, hek, hea⟩
          · rintro ⟨hs, hdF, e, he, hek, hea⟩
            rcases List.mem_cons.mp he with rfl | he2
            · have hk2 : k = tripId := hek
              rw [hk2] at hde
              rw [hde] at hdF
              exact absurd hdF (by simp)
            · exact ⟨hs, hdF, e, he2, hek, hea⟩
        · rw [if_neg hde]
          have hdeF : dateExcludes s k date = false := by
            cases hx : dateExcludes s k date
            · rfl
            · exact absurd hx hde
          by_cases hk : k = tripId
          · subst hk
            constructor
            · intro _
              refine ⟨?_, hdeF, (k, times), List.mem_cons_self _ _, rfl, hany⟩
              intro hmem
              have hc : seen.contains k = true := List.elem_iff.mpr hmem
              rw [hc] at hseenk
              exact Bool.noConfusion hseenk
            · intro _
              exact List.mem_cons_self _ _
          · constructor
            · intro hmem
              rcases List.mem_cons.mp hmem with heq | hmem2
              · exact absurd heq.symm hk
              · rw [ih (k :: seen)] at hmem2
                obtain ⟨hs, hdF, e, he, hek, hea⟩ := hmem2
                exact ⟨fun hx => hs (List.mem_cons_of_mem _ hx), hdF, e,
                  List.mem_cons_of_mem _ he, hek, hea⟩
            · rintro ⟨hs, hdF, e, he, hek, hea⟩
              rcases List.mem_cons.mp he with rfl | he2
              · exact absurd hek hk
              · refine List.mem_cons_of_mem _ ?_
                rw [ih (k :: seen)]
                refine ⟨?_, hdF, e, he2, hek, hea⟩
                intro hx
                rcases List.mem_cons.mp hx with heq | hx2
                · exact hk heq.symm
                · exact hs hx2
      · rw [if_neg hcond]
        rw [ih seen]
        constructor
        · rintro ⟨hs, hdF, e, he, hek, hea⟩
          exact ⟨hs, hdF, e, List.mem_cons_of_mem _ he, hek, hea⟩
        · rintro ⟨hs, hdF, e, he, hek, hea⟩
          rcases List.mem_cons.mp he with rfl | he2
          · exfalso
            apply hcond
            rw [Bool.and_eq_true, Bool.not_eq_true']
            refine ⟨hea, ?_⟩
            have hk2 : k = tripId := hek
            subst hk2
            cases hx : seen.contains k
            · rfl
            · exact absurd (List.elem_iff.mp hx) hs
          · exact ⟨hs, hdF, e, he2, hek, hea⟩

/-- C10 (confirmed): a trip id with a stored stop-time list but no Trip
record in the trips index is never excluded by the date filter: its
membership in `getTripsForStop` is the same with or without a date, and
the per-trip match of `findTripsWithStops` is the same function of the
entry with or without a date. -/
theorem c10_missing_trip_record (s : Store) (stopId tripId a b : String)
    (d : JsDate) (h : mapGet s.trips tripId = none) :
    (tripId ∈ getTripsForStop s stopId (some d) ↔
      tripId ∈ getTripsForStop s stopId none) ∧
    (∀ entry ∈ s.stopTimes, entry.1 = tripId →
      matchForTrip s a b (some d) entry = matchForTrip s a b none entry) := by
  have hde : ∀ dd : Option JsDate, dateExcludes s tripId dd = false := by
    intro dd
    cases dd with
    | none => rfl
    | some d2 =>
        unfold dateExcludes
        rw [h]
  constructor
  · show tripId ∈ getTripsForStopAux s stopId (some d) s.stopTimes [] ↔
      tripId ∈ getTripsForStopAux s stopId none s.stopTimes []
    rw [mem_getTripsForStopAux s stopId tripId (some d) s.stopTimes [],
      mem_getTripsForStopAux s stopId tripId none s.stopTimes [],
      hde (some d), hde none]
  · intro entry hentry hk
    unfold matchForTrip
    have h1 : dateExcludes s entry.1 (some d) = false := by rw [hk]; exact hde (some d)
    have h2 : dateExcludes s entry.1 none = false := by rw [hk]; exact hde none
    simp only [h1, h2]

/-- C10 (witness): trip "T" of the unsorted example store has stop-times
but no Trip record; its membership in `getTripsForStop` for stop "A" is
unchanged by supplying a date. -/
theorem c10_witness :
    ("T" ∈ getTripsForStop unsortedStore "A" (some exampleMonday)) ↔
    ("T" ∈ getTripsForStop unsortedStore "A" none) :=
  (c10_missing_trip_record unsortedStore "A" "T" "A" "B" exampleMonday rfl).1
